import Mathlib

/-!
Verification of the data-transformation core of the Excel filter tool
(`src/excel_filter.py`): column-name normalization (`clean_column_names`),
the row filter (`filter_sheets`), and the workbook assembly with formatting
(`apply_borders`, `apply_bold_header`, `save_filtered_data`).

Modelling conventions:
* Python strings are `List Char` (`Str` below).  Case-insensitive matching
  (`str.contains(needle, case=False)`) is modelled as substring containment
  of the lower-cased needle in the lower-cased haystack, which is what the
  pandas call computes for needles free of regex metacharacters; lower-casing
  is ASCII (`Char.toLower`), which agrees with Python `str.lower` on ASCII.
* A pandas cell is either a textual value (`CellValue.str`, holding the
  `str(value)` rendering of the cell, which covers text and numeric cells)
  or the missing value NaN (`CellValue.null`).  `Series.astype(str)` renders
  NaN as the three-character string `nan`; `cellStr` reproduces that.
* A parsed sheet (`xls.parse(sheet, header=1)`) is a `DataFrame`: a column
  list plus a row list; each row is a cell list aligned positionally with
  the columns.  Parsing itself (the spreadsheet library) is outside the
  modelled core, as in the specification.
-/

namespace ExcelFilter

/-- A Python string, modelled as its list of characters. -/
abbrev Str := List Char

/-- A cell value: either the text rendering of a non-missing value, or the
missing value NaN produced by pandas for empty cells. -/
inductive CellValue where
  | str : Str → CellValue
  | null : CellValue
deriving DecidableEq

/-- The `astype(str)` rendering used by the filter predicate on line 32 of
`src/excel_filter.py`: a non-missing cell is its text, and NaN renders as
the string `nan` (pandas renders `float('nan')` this way). -/
def cellStr : CellValue → Str
  | .str s => s
  | .null => ['n', 'a', 'n']

/-- A parsed sheet: ordered column keys plus rows of cells aligned with the
columns by position. -/
structure DataFrame where
  cols : List Str
  rows : List (List CellValue)
deriving DecidableEq

/-- Python `str.strip()` (restricted to the whitespace characters of
`Char.isWhitespace`): drop whitespace from both ends. -/
def pyStrip (s : Str) : Str :=
  (s.dropWhile Char.isWhitespace).rdropWhile Char.isWhitespace

/-- The character transformation of `str.replace(' ', '_')`. -/
def spaceToUnderscore (c : Char) : Char :=
  if c = ' ' then '_' else c

/-- The header normalization of `clean_column_names` (line 16 of
`src/excel_filter.py`): `str.strip().str.lower().str.replace(' ', '_')`. -/
def normalizeHeader (s : Str) : Str :=
  ((pyStrip s).map Char.toLower).map spaceToUnderscore

/-- `clean_column_names` (lines 14-17): normalize every column header,
leaving the row data untouched. -/
def clean_column_names (df : DataFrame) : DataFrame :=
  ⟨df.cols.map normalizeHeader, df.rows⟩

/-- Lower-casing of a string, as used for case-insensitive matching. -/
def lowerStr (s : Str) : Str := s.map Char.toLower

/-- Case-insensitive containment: `Series.str.contains(filter_value,
case=False, na=False)` on an already-stringified cell, for a needle free of
regex metacharacters, holds exactly when the lower-cased needle occurs as a
contiguous substring of the lower-cased haystack. -/
def containsCI (hay needle : Str) : Bool :=
  decide (lowerStr needle <:+: lowerStr hay)

/-- Positional cell lookup: the cell of `row` under column key `k`, given
the sheet's column list.  Missing keys (which `filter_sheets` never asks
for) and short rows give NaN, matching the pandas missing-value fill. -/
def getCell (cols : List Str) (row : List CellValue) (k : Str) : CellValue :=
  match cols.findIdx? (fun c => c == k) with
  | some i => row.getD i CellValue.null
  | none => CellValue.null

/-- The per-row predicate of line 32 of `src/excel_filter.py`:
`row.astype(str).str.contains(filter_value, case=False, na=False).any()`
over the sub-row of `valid_columns`. -/
def row_matches (cols valid_columns : List Str) (filter_value : Str)
    (row : List CellValue) : Bool :=
  valid_columns.any (fun k => containsCI (cellStr (getCell cols row k)) filter_value)

/-- Line 28 of `src/excel_filter.py`:
`[col for col in selected_columns if col in df.columns]`. -/
def valid_columns_of (df : DataFrame) (selected_columns : List Str) : List Str :=
  selected_columns.filter (fun c => df.cols.contains c)

/-- The loop body of `filter_sheets` (lines 24-33 of `src/excel_filter.py`)
for one parsed sheet: clean the columns, intersect the selected columns with
the sheet's columns, and if the intersection is non-empty keep the rows
satisfying `row_matches`; with no valid columns the sheet produces no entry
(`if valid_columns:` fails), modelled as `none`. -/
def filterOneSheet (df0 : DataFrame) (filter_value : Str)
    (selected_columns : List Str) : Option DataFrame :=
  let df := clean_column_names df0
  let valid := valid_columns_of df selected_columns
  if valid.isEmpty then none
  else some ⟨df.cols, df.rows.filter (row_matches df.cols valid filter_value)⟩

/-- Lookup of a sheet by name in a parsed workbook (`xls.parse(sheet)`,
with the workbook as an association list of parsed sheets). -/
def lookupSheet (xls : List (Str × DataFrame)) (name : Str) : Option DataFrame :=
  (xls.find? (fun p => p.1 == name)).map Prod.snd

/-- `filter_sheets` (lines 20-34 of `src/excel_filter.py`): iterate the
selected sheet names in order, filter each sheet present in the workbook,
and collect the per-sheet results into the `filtered_data` mapping. -/
def filter_sheets (xls : List (Str × DataFrame)) (selected_sheets : List Str)
    (filter_value : Str) (selected_columns : List Str) : List (Str × DataFrame) :=
  selected_sheets.filterMap (fun sheet =>
    match lookupSheet xls sheet with
    | some df => (filterOneSheet df filter_value selected_columns).map (fun t => (sheet, t))
    | none => none)

/-- The style of one side of an openpyxl cell border: absent (the default)
or `Side(style='thin')`. -/
inductive SideStyle where
  | noline : SideStyle
  | thin : SideStyle
deriving DecidableEq

/-- An openpyxl `Border`: one style per side. -/
structure CellBorder where
  left : SideStyle
  right : SideStyle
  top : SideStyle
  bottom : SideStyle
deriving DecidableEq

/-- The border constructed on lines 38-41 of `src/excel_filter.py`: thin on
all four sides. -/
def thin_border : CellBorder :=
  ⟨SideStyle.thin, SideStyle.thin, SideStyle.thin, SideStyle.thin⟩

/-- The default border of a freshly appended cell: no line on any side. -/
def defaultBorder : CellBorder :=
  ⟨SideStyle.noline, SideStyle.noline, SideStyle.noline, SideStyle.noline⟩

/-- An output-workbook cell: its value plus the formatting state the code
manipulates (bold font, border). -/
structure Cell where
  value : CellValue
  bold : Bool
  border : CellBorder
deriving DecidableEq

/-- A cell as appended by `sheet.append`: default font and border. -/
def plainCell (v : CellValue) : Cell :=
  ⟨v, false, defaultBorder⟩

/-- An output worksheet: its populated cells, row by row. -/
abbrev Sheet := List (List Cell)

/-- The rows produced by `dataframe_to_rows(df, index=False, header=True)`
and appended on lines 60-61 / 73-74: the header row (the column keys as
text) followed by the data rows, all with default formatting. -/
def sheet_of_dataframe (df : DataFrame) : Sheet :=
  (df.cols.map (fun c => plainCell (CellValue.str c))) ::
    df.rows.map (fun r => r.map plainCell)

/-- `apply_borders` (lines 37-45 of `src/excel_filter.py`): set the thin
border on every cell of the sheet. -/
def apply_borders (sheet : Sheet) : Sheet :=
  sheet.map (fun row => row.map (fun c => { c with border := thin_border }))

/-- `apply_bold_header` (lines 48-50 of `src/excel_filter.py`): set bold
font on every cell of the first row. -/
def apply_bold_header (sheet : Sheet) : Sheet :=
  match sheet with
  | [] => []
  | h :: t => h.map (fun c => { c with bold := true }) :: t

/-- Where an assembled workbook goes: a fixed on-disk path, or an in-memory
byte stream handed back to the caller. -/
inductive OutputDestination where
  | disk : Str → OutputDestination
  | memory : OutputDestination
deriving DecidableEq

/-- An assembled workbook together with its destination. -/
structure AssembledOutput where
  destination : OutputDestination
  workbook : List (Str × Sheet)
deriving DecidableEq

/-- The path literal of line 54 of `src/excel_filter.py`:
`pd.ExcelWriter('filtered_data.xlsx', engine='openpyxl')`. -/
def filteredDataPath : Str :=
  ['f', 'i', 'l', 't', 'e', 'r', 'e', 'd', '_', 'd', 'a', 't', 'a', '.',
   'x', 'l', 's', 'x']

/-- `save_filtered_data` (lines 53-75 of `src/excel_filter.py`): write each
filtered sheet (header plus filtered rows) with borders and a bold header,
then every workbook sheet whose name is not selected (header plus its rows,
uncleaned) with borders only, the whole workbook going to the fixed path
`filtered_data.xlsx` on disk. -/
def save_filtered_data (xls : List (Str × DataFrame)) (selected_sheets : List Str)
    (filtered_data : List (Str × DataFrame)) : AssembledOutput :=
  ⟨OutputDestination.disk filteredDataPath,
    (filtered_data.map (fun p =>
      (p.1, apply_bold_header (apply_borders (sheet_of_dataframe p.2)))))
    ++ ((xls.filter (fun p => !(selected_sheets.contains p.1))).map (fun p =>
      (p.1, apply_borders (sheet_of_dataframe p.2))))⟩

/-- Modelled from the spec: the repository's second script variant (the
workflow with subtotal support and in-memory output, described in spec §2,
§4.4 and §9) is not under `src/`; only the subtotal-free variant
`excel_filter.py` is.  Looking up the subtotal row supplied for a selected
sheet; a sheet with no entry gets an empty subtotal row. -/
def lookupSubtotal (subs : List (Str × List CellValue)) (name : Str) : List CellValue :=
  ((subs.find? (fun p => p.1 == name)).map Prod.snd).getD []

/-- Modelled from the spec: assembler of the missing subtotal variant, spec
§4.4 — one sheet per `selected` entry written as header row, then the data
rows, then the one subtotal row; one sheet per `unselected` entry written as
header row then its rows unmodified; per sheet a thin border on every
populated cell and bold on the first (header) row; the result returned as
an in-memory byte stream, never written to a fixed disk path. -/
def assemble (selected : List (Str × DataFrame))
    (selected_subtotals : List (Str × List CellValue))
    (unselected : List (Str × DataFrame)) : AssembledOutput :=
  ⟨OutputDestination.memory,
    (selected.map (fun p =>
      (p.1, apply_bold_header (apply_borders (sheet_of_dataframe
        ⟨p.2.cols, p.2.rows ++ [lookupSubtotal selected_subtotals p.1]⟩)))))
    ++ (unselected.map (fun p =>
      (p.1, apply_bold_header (apply_borders (sheet_of_dataframe p.2)))))⟩

/-- The cell values of a worksheet, formatting stripped. -/
def sheetValues (sh : Sheet) : List (List CellValue) :=
  sh.map (fun row => row.map Cell.value)

/-- The header row a dataframe contributes to its output sheet: its column
keys as text cells. -/
def headerValues (df : DataFrame) : List CellValue :=
  df.cols.map CellValue.str

/-- The cell-to-text coercion exactly as the specification words it: the
text representation, "with null/missing coerced to empty text". -/
def specCellText : CellValue → Str
  | .str s => s
  | .null => []

/-- The retention predicate exactly as the specification words it: some key
in the intersection of the target keys with the table's column keys has a
cell whose text (null coerced to EMPTY text) contains the needle as a
case-insensitive substring. -/
def specRetains (cols target_keys : List Str) (needle : Str)
    (row : List CellValue) : Prop :=
  ∃ k ∈ target_keys, k ∈ cols ∧
    lowerStr needle <:+: lowerStr (specCellText (getCell cols row k))

/-- The retention predicate with the one amendment the code forces: a
null/missing cell is coerced to the text `nan` (the pandas `astype(str)`
rendering), not to empty text. -/
def specRetainsAmended (cols target_keys : List Str) (needle : Str)
    (row : List CellValue) : Prop :=
  ∃ k ∈ target_keys, k ∈ cols ∧
    lowerStr needle <:+: lowerStr (cellStr (getCell cols row k))

instance (cols target_keys : List Str) (needle : Str) (row : List CellValue) :
    Decidable (specRetains cols target_keys needle row) := by
  unfold specRetains; infer_instance

instance (cols target_keys : List Str) (needle : Str) (row : List CellValue) :
    Decidable (specRetainsAmended cols target_keys needle row) := by
  unfold specRetainsAmended; infer_instance

/-- The boolean per-row predicate of the code coincides with the amended
declarative retention predicate. -/
lemma row_matches_iff (cols sel : List Str) (fv : Str) (row : List CellValue) :
    row_matches cols (sel.filter (fun c => cols.contains c)) fv row = true ↔
      specRetainsAmended cols sel fv row := by
  simp only [row_matches, specRetainsAmended, containsCI, List.any_eq_true,
    List.mem_filter, decide_eq_true_eq, List.elem_iff]
  constructor
  · rintro ⟨k, ⟨hk1, hk2⟩, hk3⟩
    exact ⟨k, hk1, hk2, hk3⟩
  · rintro ⟨k, hk1, hk2, hk3⟩
    exact ⟨k, ⟨hk1, hk2⟩, hk3⟩

/-- C1 (amended): a row is retained by the per-sheet filter if and only if
it is a row of the table and, for at least one key in the intersection of
the target keys with the table's (normalized) column keys, the row's cell
value — coerced to text, with null/missing coerced to the text `nan` —
contains the needle as a case-insensitive substring. -/
theorem claim1_filter_retains_iff (df0 : DataFrame) (fv : Str) (sel : List Str)
    (t : DataFrame) (h : filterOneSheet df0 fv sel = some t) (row : List CellValue) :
    row ∈ t.rows ↔
      row ∈ df0.rows ∧ specRetainsAmended (clean_column_names df0).cols sel fv row := by
  unfold filterOneSheet at h
  by_cases he : (valid_columns_of (clean_column_names df0) sel).isEmpty
  · simp [he] at h
  · simp only [he, if_false, Option.some.injEq, Bool.false_eq_true] at h
    subst h
    exact (List.mem_filter.trans
      (and_congr_right fun _ => row_matches_iff _ _ _ _))

/-- Witness for C1: a concrete table with a raw header `A` (normalized to
`a`), one row whose cell text is `xy`, needle `x`. -/
theorem claim1_witness :
    [CellValue.str ['x', 'y']]
        ∈ (DataFrame.mk [['a']] [[CellValue.str ['x', 'y']]]).rows ↔
      [CellValue.str ['x', 'y']]
          ∈ (DataFrame.mk [['A']] [[CellValue.str ['x', 'y']]]).rows ∧
        specRetainsAmended
          (clean_column_names (DataFrame.mk [['A']] [[CellValue.str ['x', 'y']]])).cols
          [['a']] ['x'] [CellValue.str ['x', 'y']] :=
  claim1_filter_retains_iff
    (DataFrame.mk [['A']] [[CellValue.str ['x', 'y']]]) ['x'] [['a']]
    (DataFrame.mk [['a']] [[CellValue.str ['x', 'y']]]) (by decide)
    [CellValue.str ['x', 'y']]

/-- Counterexample to C1 as stated: for the table with one column `a` and a
single row holding a null cell, needle `na`, the code retains the row (the
null cell is stringified to `nan`, which contains `na`), yet the claimed
predicate — null coerced to EMPTY text — does not hold for that row, so the
claimed "if and only if" is false. -/
theorem claim1_counterexample :
    filterOneSheet ⟨[['a']], [[CellValue.null]]⟩ ['n', 'a'] [['a']]
        = some ⟨[['a']], [[CellValue.null]]⟩
      ∧ ¬ specRetains [['a']] [['a']] ['n', 'a'] [CellValue.null] := by
  decide

/-- C4 (amended): when the intersection of the target keys with the table's
(normalized) column keys is empty, the filter produces NO entry for that
table in the result mapping (rather than an entry holding an empty table);
being a total function, it raises no error. -/
theorem claim4_no_valid_columns (df0 : DataFrame) (fv : Str) (sel : List Str)
    (h : valid_columns_of (clean_column_names df0) sel = []) :
    filterOneSheet df0 fv sel = none := by
  unfold filterOneSheet
  simp [h]

/-- Witness for C4: a table whose only column is `b` filtered on target key
`a` yields no entry. -/
theorem claim4_witness :
    filterOneSheet ⟨[['b']], []⟩ ['z'] [['a']] = none :=
  claim4_no_valid_columns ⟨[['b']], []⟩ ['z'] [['a']] (by decide)

/-- Counterexample to C4 as stated: for the table with single column `b`
and one row, filtering on the absent target key `a` gives `none` — the
sheet is omitted from the result mapping — and in particular the result is
not an entry holding an empty table, as the claim states. -/
theorem claim4_counterexample :
    filterOneSheet ⟨[['b']], [[CellValue.str ['x']]]⟩ ['z'] [['a']] = none
      ∧ ¬ ∃ t : DataFrame,
          filterOneSheet ⟨[['b']], [[CellValue.str ['x']]]⟩ ['z'] [['a']] = some t
            ∧ t.rows = [] := by
  have h0 : filterOneSheet ⟨[['b']], [[CellValue.str ['x']]]⟩ ['z'] [['a']] = none := by
    decide
  refine ⟨h0, ?_⟩
  rintro ⟨t, ht, -⟩
  rw [h0] at ht
  cases ht

/-- C5: with at least one valid target column, the empty-string needle
retains every row: the filter returns the whole (column-normalized) table
unchanged. -/
theorem claim5_empty_needle (df0 : DataFrame) (sel : List Str)
    (h : valid_columns_of (clean_column_names df0) sel ≠ []) :
    filterOneSheet df0 [] sel
      = some ⟨(clean_column_names df0).cols, df0.rows⟩ := by
  obtain ⟨k, hk⟩ := List.exists_mem_of_ne_nil _ h
  unfold filterOneSheet
  have he : (valid_columns_of (clean_column_names df0) sel).isEmpty = false := by
    simpa [List.isEmpty_iff] using h
  simp only [he, Bool.false_eq_true, if_false, Option.some.injEq]
  have hall : (clean_column_names df0).rows.filter
      (row_matches (clean_column_names df0).cols
        (valid_columns_of (clean_column_names df0) sel) []) = df0.rows := by
    refine List.filter_eq_self.mpr (fun row _ => ?_)
    refine List.any_eq_true.mpr ⟨k, hk, ?_⟩
    simp [containsCI, lowerStr, List.nil_infix]
  exact congrArg (DataFrame.mk (clean_column_names df0).cols) hall

/-- Witness for C5: a two-row table with valid column `a` and empty needle
keeps both rows. -/
theorem claim5_witness :
    filterOneSheet ⟨[['a']], [[CellValue.str ['x']], [CellValue.null]]⟩ [] [['a']]
      = some ⟨[['a']], [[CellValue.str ['x']], [CellValue.null]]⟩ :=
  claim5_empty_needle ⟨[['a']], [[CellValue.str ['x']], [CellValue.null]]⟩ [['a']]
    (by decide)

/-- C6: a filtered table carries all of the table's (normalized) columns,
and its rows form a sublist of the original rows — the retained rows keep
their original relative order. -/
theorem claim6_order_and_columns (df0 : DataFrame) (fv : Str) (sel : List Str)
    (t : DataFrame) (h : filterOneSheet df0 fv sel = some t) :
    t.cols = (clean_column_names df0).cols ∧ t.rows.Sublist df0.rows := by
  unfold filterOneSheet at h
  by_cases he : (valid_columns_of (clean_column_names df0) sel).isEmpty
  · simp [he] at h
  · simp only [he, Bool.false_eq_true, if_false, Option.some.injEq] at h
    subst h
    exact ⟨rfl, List.filter_sublist _⟩

/-- Witness for C6: the filtered table of a concrete two-row sheet keeps
the normalized columns and a sublist of the rows. -/
theorem claim6_witness :
    (DataFrame.mk [['a', '_', 'b']] [[CellValue.str ['x', 'y']]]).cols
        = (clean_column_names (DataFrame.mk [['A', ' ', 'b']]
            [[CellValue.str ['z']], [CellValue.str ['x', 'y']]])).cols
      ∧ (DataFrame.mk [['a', '_', 'b']] [[CellValue.str ['x', 'y']]]).rows.Sublist
          (DataFrame.mk [['A', ' ', 'b']]
            [[CellValue.str ['z']], [CellValue.str ['x', 'y']]]).rows := by
  have h := claim6_order_and_columns
    (DataFrame.mk [['A', ' ', 'b']] [[CellValue.str ['z']], [CellValue.str ['x', 'y']]])
    ['x'] [['a', '_', 'b']]
    (DataFrame.mk [['a', '_', 'b']] [[CellValue.str ['x', 'y']]])
  exact h (by decide)

/-- Case-insensitive containment is antitone in the needle: a needle that
is an infix of a matching needle also matches. -/
lemma containsCI_mono (hay : Str) {n1 n2 : Str} (hsub : n2 <:+: n1)
    (h : containsCI hay n1 = true) : containsCI hay n2 = true := by
  simp only [containsCI, decide_eq_true_eq] at h ⊢
  exact (hsub.map Char.toLower).trans h

/-- C8: for a fixed table and target keys, if needle `n2` is a substring of
needle `n1`, every row retained when filtering with `n1` is also retained
when filtering with `n2`. -/
theorem claim8_filter_monotone (df0 : DataFrame) (n1 n2 : Str) (sel : List Str)
    (t1 t2 : DataFrame) (hsub : n2 <:+: n1)
    (h1 : filterOneSheet df0 n1 sel = some t1)
    (h2 : filterOneSheet df0 n2 sel = some t2) :
    ∀ row ∈ t1.rows, row ∈ t2.rows := by
  intro row hrow
  unfold filterOneSheet at h1 h2
  by_cases he : (valid_columns_of (clean_column_names df0) sel).isEmpty
  · simp [he] at h1
  · simp only [he, Bool.false_eq_true, if_false, Option.some.injEq] at h1 h2
    subst h1
    subst h2
    rw [List.mem_filter] at hrow ⊢
    refine ⟨hrow.1, ?_⟩
    have hm := hrow.2
    simp only [row_matches, List.any_eq_true] at hm ⊢
    obtain ⟨k, hk, hc⟩ := hm
    exact ⟨k, hk, containsCI_mono _ hsub hc⟩

/-- Witness for C8: needle `b` is a substring of needle `ab`; the row kept
under `ab` is kept under `b`. -/
theorem claim8_witness :
    [CellValue.str ['x', 'a', 'b']]
      ∈ (DataFrame.mk [['a']] [[CellValue.str ['x', 'a', 'b']]]).rows := by
  have h := claim8_filter_monotone
    (DataFrame.mk [['a']] [[CellValue.str ['x', 'a', 'b']], [CellValue.str ['q']]])
    ['a', 'b'] ['b'] [['a']]
    (DataFrame.mk [['a']] [[CellValue.str ['x', 'a', 'b']]])
    (DataFrame.mk [['a']] [[CellValue.str ['x', 'a', 'b']]])
    (by decide) (by decide) (by decide)
  exact h [CellValue.str ['x', 'a', 'b']] (by decide)

/-- The twenty-six basic latin capital letters. -/
def upperChars : Str :=
  ['A', 'B', 'C', 'D', 'E', 'F', 'G', 'H', 'I', 'J', 'K', 'L', 'M',
   'N', 'O', 'P', 'Q', 'R', 'S', 'T', 'U', 'V', 'W', 'X', 'Y', 'Z']

lemma mem_upperChars_of_range {c : Char} (h1 : 65 ≤ c.toNat) (h2 : c.toNat ≤ 90) :
    c ∈ upperChars := by
  have hc : c = Char.ofNat c.toNat := (Char.ofNat_toNat c).symm
  have h26 : c.toNat = 65 ∨ c.toNat = 66 ∨ c.toNat = 67 ∨ c.toNat = 68 ∨
      c.toNat = 69 ∨ c.toNat = 70 ∨ c.toNat = 71 ∨ c.toNat = 72 ∨
      c.toNat = 73 ∨ c.toNat = 74 ∨ c.toNat = 75 ∨ c.toNat = 76 ∨
      c.toNat = 77 ∨ c.toNat = 78 ∨ c.toNat = 79 ∨ c.toNat = 80 ∨
      c.toNat = 81 ∨ c.toNat = 82 ∨ c.toNat = 83 ∨ c.toNat = 84 ∨
      c.toNat = 85 ∨ c.toNat = 86 ∨ c.toNat = 87 ∨ c.toNat = 88 ∨
      c.toNat = 89 ∨ c.toNat = 90 := by omega
  rcases h26 with h | h | h | h | h | h | h | h | h | h | h | h | h | h |
    h | h | h | h | h | h | h | h | h | h | h | h <;>
    rw [h] at hc <;> rw [hc] <;> decide

lemma upper_toLower_facts :
    ∀ c ∈ upperChars, Char.toLower (Char.toLower c) = Char.toLower c
      ∧ (Char.toLower c).isWhitespace = false ∧ c.isWhitespace = false := by
  decide

lemma toLower_eq_self_of_not_upper {c : Char}
    (h : ¬(65 ≤ c.toNat ∧ c.toNat ≤ 90)) : Char.toLower c = c := by
  unfold Char.toLower
  rw [if_neg h]

lemma toLower_toLower (c : Char) :
    Char.toLower (Char.toLower c) = Char.toLower c := by
  by_cases h : 65 ≤ c.toNat ∧ c.toNat ≤ 90
  · exact (upper_toLower_facts c (mem_upperChars_of_range h.1 h.2)).1
  · rw [toLower_eq_self_of_not_upper h, toLower_eq_self_of_not_upper h]

lemma isWhitespace_toLower (c : Char) :
    (Char.toLower c).isWhitespace = c.isWhitespace := by
  by_cases h : 65 ≤ c.toNat ∧ c.toNat ≤ 90
  · have hf := upper_toLower_facts c (mem_upperChars_of_range h.1 h.2)
    rw [hf.2.1, hf.2.2]
  · rw [toLower_eq_self_of_not_upper h]

/-- The full per-character transformation of the normalizer. -/
lemma normalizeChar_idem (c : Char) :
    spaceToUnderscore (Char.toLower (spaceToUnderscore (Char.toLower c)))
      = spaceToUnderscore (Char.toLower c) := by
  by_cases hd : Char.toLower c = ' '
  · rw [hd]
    decide
  · have hs : spaceToUnderscore (Char.toLower c) = Char.toLower c := by
      simp [spaceToUnderscore, hd]
    rw [hs, toLower_toLower, hs]

lemma normalizeChar_not_ws {c : Char} (h : c.isWhitespace = false) :
    (spaceToUnderscore (Char.toLower c)).isWhitespace = false := by
  by_cases hd : Char.toLower c = ' '
  · have : spaceToUnderscore (Char.toLower c) = '_' := by
      simp [spaceToUnderscore, hd]
    rw [this]
    decide
  · have hs : spaceToUnderscore (Char.toLower c) = Char.toLower c := by
      simp [spaceToUnderscore, hd]
    rw [hs, isWhitespace_toLower]
    exact h

lemma pyStrip_head_not_ws (s : Str) (hl : 0 < (pyStrip s).length) :
    ((pyStrip s).get ⟨0, hl⟩).isWhitespace = false := by
  have hpre : pyStrip s <+: s.dropWhile Char.isWhitespace :=
    List.rdropWhile_prefix _ _
  have hlen : 0 < (s.dropWhile Char.isWhitespace).length :=
    lt_of_lt_of_le hl hpre.length_le
  rw [List.get_eq_getElem, hpre.getElem hl]
  have hz := List.dropWhile_get_zero_not (p := Char.isWhitespace) s hlen
  rw [List.get_eq_getElem] at hz
  simpa using hz

lemma pyStrip_getLast_not_ws (s : Str) (hl : pyStrip s ≠ []) :
    ((pyStrip s).getLast hl).isWhitespace = false := by
  unfold pyStrip at hl ⊢
  have := List.rdropWhile_last_not Char.isWhitespace
    (s.dropWhile Char.isWhitespace) hl
  simpa using this

/-- The normalizer as a single map over the stripped string. -/
lemma normalizeHeader_eq_map (u : Str) :
    normalizeHeader u
      = (pyStrip u).map (fun c => spaceToUnderscore (Char.toLower c)) := by
  rw [normalizeHeader, List.map_map]
  rfl

/-- A normalized header has no surrounding whitespace, so stripping it
again does nothing. -/
lemma pyStrip_normalizeHeader (s : Str) :
    pyStrip (normalizeHeader s) = normalizeHeader s := by
  have hd : (normalizeHeader s).dropWhile Char.isWhitespace = normalizeHeader s := by
    rw [normalizeHeader_eq_map]
    refine List.dropWhile_eq_self_iff.mpr ?_
    intro hl
    have hl0 : 0 < (pyStrip s).length := by simpa using hl
    rw [List.get_eq_getElem, List.getElem_map]
    have hw := pyStrip_head_not_ws s hl0
    rw [List.get_eq_getElem] at hw
    simp [normalizeChar_not_ws hw]
  unfold pyStrip
  rw [hd]
  rw [normalizeHeader_eq_map]
  refine List.rdropWhile_eq_self_iff.mpr ?_
  intro hl
  have hl0 : pyStrip s ≠ [] := by simpa using hl
  rw [List.getLast_map]
  have hw := pyStrip_getLast_not_ws s hl0
  simp [normalizeChar_not_ws hw]

/-- C7: the column normalizer is idempotent — normalizing an already
normalized header string changes nothing. -/
theorem claim7_normalize_idempotent (s : Str) :
    normalizeHeader (normalizeHeader s) = normalizeHeader s := by
  rw [normalizeHeader_eq_map (normalizeHeader s), pyStrip_normalizeHeader,
    normalizeHeader_eq_map s, List.map_map]
  exact List.map_congr_left (fun c _ => normalizeChar_idem c)

lemma mem_apply_borders (sh : Sheet) {row : List Cell} (hrow : row ∈ apply_borders sh)
    {c : Cell} (hc : c ∈ row) : c.border = thin_border := by
  simp only [apply_borders, List.mem_map] at hrow
  obtain ⟨r0, -, rfl⟩ := hrow
  simp only [List.mem_map] at hc
  obtain ⟨c0, -, rfl⟩ := hc
  rfl

lemma mem_apply_bold_header_borders (sh : Sheet) {row : List Cell}
    (hrow : row ∈ apply_bold_header (apply_borders sh))
    {c : Cell} (hc : c ∈ row) : c.border = thin_border := by
  cases hsh : apply_borders sh with
  | nil => rw [hsh] at hrow; cases hrow
  | cons h t =>
    rw [hsh] at hrow
    rcases (List.mem_cons.mp hrow) with hr | hr
    · subst hr
      simp only [List.mem_map] at hc
      obtain ⟨c0, hc0, rfl⟩ := hc
      have : c0.border = thin_border :=
        mem_apply_borders sh (hsh ▸ List.mem_cons_self h t) hc0
      simpa using this
    · exact mem_apply_borders sh (hsh ▸ List.mem_cons_of_mem h hr) hc

lemma head_bold_apply_bold_header (sh0 : Sheet) :
    ∀ c ∈ (apply_bold_header sh0).headD [], c.bold = true := by
  cases sh0 with
  | nil => intro c hc; cases hc
  | cons h t =>
    intro c hc
    simp only [apply_bold_header, List.headD_cons, List.mem_map] at hc
    obtain ⟨c0, -, rfl⟩ := hc
    rfl

/-- C3 (amended): in the output of `save_filtered_data`, every populated
cell of every sheet carries the thin border on all four sides, and the
header row's cells are bold in the filtered (selected) sheets.  Unselected
sheets' header rows are NOT bolded (see the counterexample). -/
theorem claim3_borders_and_selected_bold (xls : List (Str × DataFrame))
    (selected_sheets : List Str) (filtered_data : List (Str × DataFrame)) :
    (∀ p ∈ (save_filtered_data xls selected_sheets filtered_data).workbook,
        ∀ row ∈ p.2, ∀ c ∈ row, c.border = thin_border)
      ∧ (∀ q ∈ filtered_data,
          ∃ sh, (q.1, sh) ∈ (save_filtered_data xls selected_sheets filtered_data).workbook
            ∧ ∀ c ∈ sh.headD [], c.bold = true) := by
  constructor
  · intro p hp row hrow c hc
    simp only [save_filtered_data, List.mem_append, List.mem_map] at hp
    rcases hp with ⟨q, -, rfl⟩ | ⟨q, -, rfl⟩
    · exact mem_apply_bold_header_borders (sheet_of_dataframe q.2) hrow hc
    · exact mem_apply_borders (sheet_of_dataframe q.2) hrow hc
  · intro q hq
    refine ⟨apply_bold_header (apply_borders (sheet_of_dataframe q.2)), ?_, ?_⟩
    · simp only [save_filtered_data, List.mem_append, List.mem_map]
      exact Or.inl ⟨q, hq, rfl⟩
    · exact head_bold_apply_bold_header _

/-- Witness for C3 (amended): concrete output of one filtered sheet `f` and
one unselected sheet `u`; the filtered sheet's only cell is bordered, and
the filtered sheet's header is bold. -/
theorem claim3_witness :
    (Cell.mk (CellValue.str ['g']) true thin_border).border = thin_border
      ∧ ∃ sh, ((['f'], sh)
            ∈ (save_filtered_data [(['u'], DataFrame.mk [['h']] [])] []
                [(['f'], DataFrame.mk [['g']] [])]).workbook
          ∧ ∀ c ∈ sh.headD [], c.bold = true) :=
  ⟨(claim3_borders_and_selected_bold [(['u'], DataFrame.mk [['h']] [])] []
      [(['f'], DataFrame.mk [['g']] [])]).1
      (['f'], [[Cell.mk (CellValue.str ['g']) true thin_border]]) (by decide)
      [Cell.mk (CellValue.str ['g']) true thin_border] (by decide)
      (Cell.mk (CellValue.str ['g']) true thin_border) (by decide),
    (claim3_borders_and_selected_bold [(['u'], DataFrame.mk [['h']] [])] []
      [(['f'], DataFrame.mk [['g']] [])]).2
      (['f'], DataFrame.mk [['g']] []) (by decide)⟩

/-- Counterexample to C3 as stated: a workbook with a single unselected
sheet `s` (header `h`).  Its output sheet gets borders but its header row
is NOT bold, so "in every output sheet the header row's cells are bold and
every populated cell has a thin border" fails. -/
theorem claim3_counterexample :
    ¬ ∀ p ∈ (save_filtered_data [(['s'], DataFrame.mk [['h']] [])] [] []).workbook,
        (∀ c ∈ p.2.headD [], c.bold = true)
          ∧ (∀ row ∈ p.2, ∀ c ∈ row, c.border = thin_border) := by
  decide

lemma sheetValues_apply_borders (sh : Sheet) :
    sheetValues (apply_borders sh) = sheetValues sh := by
  simp only [sheetValues, apply_borders, List.map_map]
  refine List.map_congr_left (fun row _ => ?_)
  simp only [Function.comp, List.map_map]
  exact List.map_congr_left (fun c _ => rfl)

lemma sheetValues_apply_bold_header (sh : Sheet) :
    sheetValues (apply_bold_header sh) = sheetValues sh := by
  cases sh with
  | nil => rfl
  | cons h t =>
    simp only [sheetValues, apply_bold_header, List.map_cons, List.map_map]
    congr 1

@[simp] lemma value_plainCell (c : CellValue) : (plainCell c).value = c := rfl

lemma sheetValues_sheet_of_dataframe (df : DataFrame) :
    sheetValues (sheet_of_dataframe df) = headerValues df :: df.rows := by
  simp only [sheetValues, sheet_of_dataframe, headerValues, List.map_cons,
    List.map_map]
  congr 1
  refine (List.map_congr_left fun row _ => ?_).trans (List.map_id _)
  show List.map Cell.value (List.map plainCell row) = id row
  rw [List.map_map]
  exact (List.map_congr_left fun c _ => rfl).trans (List.map_id _)

/-- C10: a selected sheet whose (normalized) columns meet the target keys
produces an entry in `filtered_data` even when no row matches the needle:
the entry is the empty table carrying the sheet's normalized columns, and
the saved workbook then contains that sheet as a single header row with no
data rows. -/
theorem claim10_empty_match_entry (xls : List (Str × DataFrame)) (selected : List Str)
    (fv : Str) (sel_cols : List Str) (name : Str) (df0 : DataFrame)
    (hname : name ∈ selected)
    (hdf : lookupSheet xls name = some df0)
    (hvalid : valid_columns_of (clean_column_names df0) sel_cols ≠ [])
    (hnone : ∀ row ∈ df0.rows,
      row_matches (clean_column_names df0).cols
        (valid_columns_of (clean_column_names df0) sel_cols) fv row = false) :
    (name, DataFrame.mk (clean_column_names df0).cols [])
        ∈ filter_sheets xls selected fv sel_cols
      ∧ ∃ sh, (name, sh)
            ∈ (save_filtered_data xls selected
                (filter_sheets xls selected fv sel_cols)).workbook
          ∧ sheetValues sh = [headerValues (clean_column_names df0)] := by
  have hfos : filterOneSheet df0 fv sel_cols
      = some ⟨(clean_column_names df0).cols, []⟩ := by
    unfold filterOneSheet
    have he : (valid_columns_of (clean_column_names df0) sel_cols).isEmpty = false := by
      simpa [List.isEmpty_iff] using hvalid
    simp only [he, Bool.false_eq_true, if_false, Option.some.injEq]
    have hnil : (clean_column_names df0).rows.filter
        (row_matches (clean_column_names df0).cols
          (valid_columns_of (clean_column_names df0) sel_cols) fv) = [] := by
      refine List.filter_eq_nil_iff.mpr (fun row hrow => ?_)
      simp [hnone row hrow]
    exact congrArg (DataFrame.mk (clean_column_names df0).cols) hnil
  have hmem : (name, DataFrame.mk (clean_column_names df0).cols [])
      ∈ filter_sheets xls selected fv sel_cols := by
    unfold filter_sheets
    refine List.mem_filterMap.mpr ⟨name, hname, ?_⟩
    rw [hdf]
    simp [hfos]
  refine ⟨hmem, apply_bold_header (apply_borders (sheet_of_dataframe
    (DataFrame.mk (clean_column_names df0).cols []))), ?_, ?_⟩
  · simp only [save_filtered_data, List.mem_append, List.mem_map]
    exact Or.inl ⟨(name, DataFrame.mk (clean_column_names df0).cols []), hmem, rfl⟩
  · rw [sheetValues_apply_bold_header, sheetValues_apply_borders,
      sheetValues_sheet_of_dataframe]
    rfl

/-- Witness for C10: sheet `s` with column `a`, one row `zz`, needle `q`
matching nothing: the filter yields the empty table for `s`, and the output
workbook holds `s` as a bare header row. -/
theorem claim10_witness :
    (['s'], DataFrame.mk [['a']] [])
        ∈ filter_sheets [(['s'], DataFrame.mk [['a']] [[CellValue.str ['z', 'z']]])]
            [['s']] ['q'] [['a']]
      ∧ ∃ sh, (['s'], sh)
            ∈ (save_filtered_data [(['s'], DataFrame.mk [['a']] [[CellValue.str ['z', 'z']]])]
                [['s']]
                (filter_sheets [(['s'], DataFrame.mk [['a']] [[CellValue.str ['z', 'z']]])]
                  [['s']] ['q'] [['a']])).workbook
          ∧ sheetValues sh = [headerValues (clean_column_names
              (DataFrame.mk [['a']] [[CellValue.str ['z', 'z']]]))] :=
  claim10_empty_match_entry
    [(['s'], DataFrame.mk [['a']] [[CellValue.str ['z', 'z']]])] [['s']]
    ['q'] [['a']] ['s'] (DataFrame.mk [['a']] [[CellValue.str ['z', 'z']]])
    (by decide) (by decide) (by decide) (by decide)

lemma assemble_names (selected : List (Str × DataFrame))
    (subs : List (Str × List CellValue)) (unselected : List (Str × DataFrame)) :
    (assemble selected subs unselected).workbook.map Prod.fst
      = selected.map Prod.fst ++ unselected.map Prod.fst := by
  simp only [assemble, List.map_append, List.map_map]
  congr 1

/-- C2: in the assembled output workbook, every sheet name present in the
selected or the unselected input mapping appears exactly once; each
selected sheet's cell values are its header row, then exactly its filtered
data rows, then the one subtotal row; each unselected sheet's cell values
are its header row then exactly its original data rows, unmodified. -/
theorem claim2_assembly_complete (selected : List (Str × DataFrame))
    (subs : List (Str × List CellValue)) (unselected : List (Str × DataFrame))
    (hnodup : (selected.map Prod.fst ++ unselected.map Prod.fst).Nodup) :
    (∀ n ∈ selected.map Prod.fst ++ unselected.map Prod.fst,
        ((assemble selected subs unselected).workbook.map Prod.fst).countP
          (fun m => decide (m = n)) = 1)
      ∧ (∀ p ∈ selected,
          ∃ sh, (p.1, sh) ∈ (assemble selected subs unselected).workbook
            ∧ sheetValues sh
                = headerValues p.2 :: (p.2.rows ++ [lookupSubtotal subs p.1]))
      ∧ (∀ p ∈ unselected,
          ∃ sh, (p.1, sh) ∈ (assemble selected subs unselected).workbook
            ∧ sheetValues sh = headerValues p.2 :: p.2.rows) := by
  refine ⟨fun n hn => ?_, fun p hp => ?_, fun p hp => ?_⟩
  · rw [assemble_names]
    exact List.count_eq_one_of_mem hnodup hn
  · refine ⟨apply_bold_header (apply_borders (sheet_of_dataframe
      (DataFrame.mk p.2.cols (p.2.rows ++ [lookupSubtotal subs p.1])))), ?_, ?_⟩
    · simp only [assemble, List.mem_append, List.mem_map]
      exact Or.inl ⟨p, hp, rfl⟩
    · rw [sheetValues_apply_bold_header, sheetValues_apply_borders,
        sheetValues_sheet_of_dataframe]
      rfl
  · refine ⟨apply_bold_header (apply_borders (sheet_of_dataframe p.2)), ?_, ?_⟩
    · simp only [assemble, List.mem_append, List.mem_map]
      exact Or.inr ⟨p, hp, rfl⟩
    · rw [sheetValues_apply_bold_header, sheetValues_apply_borders,
        sheetValues_sheet_of_dataframe]

/-- Witness for C2: one selected sheet `s` (one data row plus a subtotal
row) and one unselected sheet `u`; each name occurs once and both sheets
hold the stated content rows. -/
theorem claim2_witness :
    ((assemble [(['s'], DataFrame.mk [['a']] [[CellValue.str ['x']]])]
          [(['s'], [CellValue.str ['3']])]
          [(['u'], DataFrame.mk [['b']] [[CellValue.str ['y']]])]).workbook.map
        Prod.fst).countP (fun m => decide (m = ['s'])) = 1
      ∧ (∃ sh, (['s'], sh)
            ∈ (assemble [(['s'], DataFrame.mk [['a']] [[CellValue.str ['x']]])]
                [(['s'], [CellValue.str ['3']])]
                [(['u'], DataFrame.mk [['b']] [[CellValue.str ['y']]])]).workbook
          ∧ sheetValues sh
              = headerValues (DataFrame.mk [['a']] [[CellValue.str ['x']]])
                  :: ([[CellValue.str ['x']]]
                    ++ [lookupSubtotal [(['s'], [CellValue.str ['3']])] ['s']]))
      ∧ (∃ sh, (['u'], sh)
            ∈ (assemble [(['s'], DataFrame.mk [['a']] [[CellValue.str ['x']]])]
                [(['s'], [CellValue.str ['3']])]
                [(['u'], DataFrame.mk [['b']] [[CellValue.str ['y']]])]).workbook
          ∧ sheetValues sh
              = headerValues (DataFrame.mk [['b']] [[CellValue.str ['y']]])
                  :: [[CellValue.str ['y']]]) := by
  have h := claim2_assembly_complete
    [(['s'], DataFrame.mk [['a']] [[CellValue.str ['x']]])]
    [(['s'], [CellValue.str ['3']])]
    [(['u'], DataFrame.mk [['b']] [[CellValue.str ['y']]])] (by decide)
  exact ⟨h.1 ['s'] (by decide),
    h.2.1 (['s'], DataFrame.mk [['a']] [[CellValue.str ['x']]]) (by decide),
    h.2.2 (['u'], DataFrame.mk [['b']] [[CellValue.str ['y']]]) (by decide)⟩

/-- C9: the modelled assembler hands its workbook back as an in-memory
byte stream and never targets a fixed on-disk path. -/
theorem claim9_in_memory (selected : List (Str × DataFrame))
    (subs : List (Str × List CellValue)) (unselected : List (Str × DataFrame)) :
    (assemble selected subs unselected).destination = OutputDestination.memory
      ∧ ∀ p : Str, (assemble selected subs unselected).destination
          ≠ OutputDestination.disk p := by
  exact ⟨rfl, fun p h => by cases h⟩

/-- Witness for C9: the destination of a concrete assembly is the
in-memory stream and differs from the fixed path of the on-disk variant. -/
theorem claim9_witness :
    (assemble [] [] []).destination = OutputDestination.memory
      ∧ (assemble [] [] []).destination ≠ OutputDestination.disk filteredDataPath :=
  ⟨(claim9_in_memory [] [] []).1, (claim9_in_memory [] [] []).2 filteredDataPath⟩

end ExcelFilter
